import Mathlib

/-!
Shallow embedding of `src/app.py` (haystack-search-app): a session-scoped
document upload / search application.

The repository's own logic is the session store (filesystem directories keyed
by a session token), the per-query index rebuild, and the result rendering in
`run_search`.  The Haystack collaborators (text converters + `PreProcessor`,
`InMemoryDocumentStore`, `ExtractiveQAPipeline`) are external libraries; they
are modelled abstractly: text extraction + chunking as a function
`Conv : extension → content → list of chunk texts`, and the QA pipeline as a
function `Pipeline : query → retriever top_k → reader top_k → index → answers`
whose contract (from the spec, §4.3) appears as hypotheses where a claim
needs it.

The filesystem is modelled as an association list from session id to the list
of (filename, content) pairs in that session's directory; `add_files` only
ever writes basenames, so session directories are flat, matching everything
this program can create.
-/

namespace HaystackApp

abbrev SessionId := String
abbrev FileName := String
abbrev Content := String

/-- Source: `SESSIONS_DIR = os.path.join(tempfile.gettempdir(), "haystack_user_sessions")`. -/
def sessionsDir : String := "/tmp/haystack_user_sessions"

/-- A Haystack `Document` after preprocessing: chunk text plus the metadata
attached at conversion time (`meta={"name": file, "path": filepath}`). -/
structure Passage where
  content : String
  name : String
  path : String
deriving DecidableEq, Repr

/-- A Haystack `Answer` as consumed by `run_search`: `ans.context` and
`ans.meta.get('name') / ans.meta.get('path')` (a Python `dict.get` may
return `None`, hence `Option`). -/
structure Answer where
  context : String
  name : Option String
  path : Option String
deriving DecidableEq, Repr

/-- The `InMemoryDocumentStore` contents. -/
abbrev DocStore := List Passage

/-- The external `ExtractiveQAPipeline`:
`pipe query retriever_top_k reader_top_k index = answers`. -/
abbrev Pipeline := String → Nat → Nat → DocStore → List Answer

/-- One session directory: its regular files in enumeration order. -/
abbrev SessionFiles := List (FileName × Content)

/-- The sessions root directory: one subdirectory per session token. -/
abbrev Store := List (SessionId × SessionFiles)

def lookupSession (st : Store) (sid : SessionId) : Option SessionFiles :=
  (st.find? (fun e => e.1 == sid)).map (fun e => e.2)

/-- Files of a session's directory; a directory that does not exist holds
no files. -/
def filesOf (st : Store) (sid : SessionId) : SessionFiles :=
  (lookupSession st sid).getD []

/-- Source `get_user_dir`: `os.makedirs(user_dir, exist_ok=True)` — creates the
session directory (empty) iff absent. -/
def get_user_dir (st : Store) (sid : SessionId) : Store :=
  if (st.find? (fun e => e.1 == sid)).isSome then st else st ++ [(sid, [])]

def updateSession (st : Store) (sid : SessionId) (f : SessionFiles → SessionFiles) : Store :=
  st.map (fun e => if e.1 == sid then (e.1, f e.2) else e)

/-- Python `os.path.basename`: the part after the last path separator. -/
def basename (p : String) : String := (p.splitOn "/").getLastD p

/-- Writing one file into a directory: `open(dest_path, "wb")` overwrites an
existing file of that name, otherwise creates a new entry. -/
def writeFile (fs : SessionFiles) (n : FileName) (c : Content) : SessionFiles :=
  if fs.any (fun e => e.1 == n) then
    fs.map (fun e => if e.1 == n then (n, c) else e)
  else fs ++ [(n, c)]

/-- Source `add_files(user_id, files)`: write each upload under its basename, return
`f"{len(files)} fichier(s) ajouté(s)."`. -/
def add_files (st : Store) (sid : SessionId) (uploads : List (String × Content)) :
    Store × String :=
  let st1 := get_user_dir st sid
  let st2 := uploads.foldl
    (fun acc u => updateSession acc sid (fun fs => writeFile fs (basename u.1) u.2)) st1
  (st2, toString uploads.length ++ " fichier(s) ajouté(s).")

/-- Source `delete_files(user_id)`: `shutil.rmtree(user_dir); os.makedirs(user_dir)` —
the session directory afterwards exists and is empty. -/
def delete_files (st : Store) (sid : SessionId) : Store × String :=
  let st1 := get_user_dir st sid
  (updateSession st1 sid (fun _ => []), "Tous les fichiers ont été supprimés.")

/-- The spec's `list_session_files`: enumerate the regular files stored for
the session (realised in the source by `os.walk(user_dir)`). -/
def list_session_files (st : Store) (sid : SessionId) : List FileName :=
  (filesOf st sid).map (fun e => e.1)

/-- Index of the last '.' in the character list, if any. -/
def lastDotIdx (cs : List Char) : Option Nat :=
  ((List.range cs.length).filter (fun i => cs.getD i ' ' == '.')).getLast?

/-- Python `os.path.splitext(file)[-1]` for a basename: the suffix from the last
dot, except that leading dots are not extension separators
(`splitext(".txt") = (".txt", "")`). -/
def pySplitextExt (s : String) : String :=
  match lastDotIdx s.data with
  | none => ""
  | some i =>
    if (s.data.take i).any (fun ch => ch != '.') then
      String.mk (s.data.drop i)
    else ""

/-- Python `str.lower()` for the extension comparison (characterwise lowering). -/
def strToLower (s : String) : String := String.mk (s.data.map Char.toLower)

/-- The keys of the `converters` dict: `converters.get(ext)` succeeds iff the
(lowered) extension is one of these. -/
def recognizedExt (ext : String) : Bool :=
  ext == ".pdf" || ext == ".txt" || ext == ".docx"

/-- External converter + `PreProcessor`: given the (lowered) extension and the
file content, the list of chunk texts produced. -/
abbrev Conv := String → Content → List String

def sessionDirPath (sid : SessionId) : String := sessionsDir ++ "/" ++ sid

/-- Source `filepath = os.path.join(root, file)` for a file directly under the
session directory. -/
def filePath (sid : SessionId) (f : FileName) : String := sessionDirPath sid ++ "/" ++ f

/-- The loop body of `run_search`'s walk: one stored file's contribution to
`all_docs`.  `ext = os.path.splitext(file)[-1].lower()`; if `converters.get(ext)`
succeeds the converted document is preprocessed into chunks carrying
`meta={"name": file, "path": filepath}`, otherwise the file is skipped. -/
def fileDocs (conv : Conv) (sid : SessionId) (fc : FileName × Content) : List Passage :=
  let ext := strToLower (pySplitextExt fc.1)
  if recognizedExt ext then
    (conv ext fc.2).map (fun t => Passage.mk t fc.1 (filePath sid fc.1))
  else []

/-- Accumulated `all_docs` over the walk of the session directory. -/
def loadDocs (conv : Conv) (fs : SessionFiles) (sid : SessionId) : DocStore :=
  fs.flatMap (fileDocs conv sid)

def optStr : Option String → String
  | some s => s
  | none => "None"

/-- One rendered result block:
`f"**Extrait :** {context}\n\n**Fichier :** {name}\n**Chemin :** {path}"`
with `context = ans.context.strip().replace("\n", " ")`. -/
def renderAnswer (a : Answer) : String :=
  "**Extrait :** " ++ ((a.context.trim).replace "\n" " ")
    ++ "\n\n**Fichier :** " ++ optStr a.name
    ++ "\n**Chemin :** " ++ optStr a.path

/-- Source: `"\n---\n".join(results) if results else "Aucun passage trouvé."`. -/
def renderAll (answers : List Answer) : String :=
  if answers.isEmpty then "Aucun passage trouvé."
  else String.intercalate "\n---\n" (answers.map renderAnswer)

/-- Source `run_search(user_id, query)`: ensure the session dir exists, rebuild
`all_docs` from its files, `delete_documents()` then `write_documents(all_docs)`
(so the new index is exactly `all_docs`), run the pipeline with
`{"Retriever": {"top_k": 10}, "Reader": {"top_k": 5}}`, and render.
Returns (store after, document store after, rendered output). -/
def run_search (conv : Conv) (pipe : Pipeline) (st : Store) (ds : DocStore)
    (sid : SessionId) (query : String) : Store × DocStore × String :=
  let st1 := get_user_dir st sid
  let allDocs := loadDocs conv (filesOf st1 sid) sid
  let ds1 := allDocs
  let answers := pipe query 10 5 ds1
  (st1, ds1, renderAll answers)

/-! ### Store lemmas -/

theorem lookupSession_cons (e : SessionId × SessionFiles) (rest : Store) (sid : SessionId) :
    lookupSession (e :: rest) sid = if e.1 == sid then some e.2 else lookupSession rest sid := by
  simp only [lookupSession, List.find?_cons]
  cases h : (e.1 == sid) <;> simp [h]

theorem updateSession_cons (e : SessionId × SessionFiles) (rest : Store) (sid : SessionId)
    (f : SessionFiles → SessionFiles) :
    updateSession (e :: rest) sid f
      = (if e.1 == sid then (e.1, f e.2) else e) :: updateSession rest sid f := rfl

theorem lookupSession_updateSession (st : Store) (sid : SessionId)
    (f : SessionFiles → SessionFiles) :
    lookupSession (updateSession st sid f) sid = (lookupSession st sid).map f := by
  induction st with
  | nil => rfl
  | cons e rest ih =>
    cases h : (e.1 == sid) <;>
      simp [updateSession_cons, lookupSession_cons, h, ih]

theorem lookupSession_get_user_dir_self (st : Store) (sid : SessionId) :
    lookupSession (get_user_dir st sid) sid = some (filesOf st sid) := by
  unfold get_user_dir
  cases h : st.find? (fun e => e.1 == sid) with
  | some e => simp [filesOf, lookupSession, h]
  | none => simp [filesOf, lookupSession, List.find?_append, h, List.find?_cons]

theorem filesOf_get_user_dir (st : Store) (sid s : SessionId) :
    filesOf (get_user_dir st sid) s = filesOf st s := by
  unfold get_user_dir
  by_cases hs : (st.find? (fun e => e.1 == sid)).isSome
  · simp [hs]
  · rw [if_neg hs]
    unfold filesOf lookupSession
    rw [List.find?_append]
    cases h : st.find? (fun e => e.1 == s) with
    | some e => simp [h]
    | none =>
      cases hss : (sid == s) <;> simp [h, List.find?_cons, hss]

/-- The document store produced by `run_search` is the load of the session's
files. -/
theorem run_search_index (conv : Conv) (pipe : Pipeline) (st : Store)
    (ds : DocStore) (sid : SessionId) (q : String) :
    (run_search conv pipe st ds sid q).2.1 = loadDocs conv (filesOf st sid) sid := by
  unfold run_search
  simp [filesOf_get_user_dir]

/-- The rendered output of `run_search` is the rendering of the pipeline's
answers over the freshly loaded index. -/
theorem run_search_output (conv : Conv) (pipe : Pipeline) (st : Store)
    (ds : DocStore) (sid : SessionId) (q : String) :
    (run_search conv pipe st ds sid q).2.2
      = renderAll (pipe q 10 5 (loadDocs conv (filesOf st sid) sid)) := by
  unfold run_search
  simp [filesOf_get_user_dir]

theorem mem_fileDocs (conv : Conv) (sid : SessionId) (fc : FileName × Content) (p : Passage) :
    p ∈ fileDocs conv sid fc ↔
      recognizedExt (strToLower (pySplitextExt fc.1)) = true ∧
      p ∈ (conv (strToLower (pySplitextExt fc.1)) fc.2).map
            (fun t => Passage.mk t fc.1 (filePath sid fc.1)) := by
  unfold fileDocs
  cases h : recognizedExt (strToLower (pySplitextExt fc.1)) <;> simp [h]

theorem recognizedExt_iff (e : String) :
    recognizedExt e = true ↔ (e = ".pdf" ∨ e = ".txt" ∨ e = ".docx") := by
  simp [recognizedExt, Bool.or_eq_true, beq_iff_eq, or_assoc]

/-- Every passage loaded for a session carries a path inside that session's
directory. -/
theorem loadDocs_path (conv : Conv) (fs : SessionFiles) (sid : SessionId)
    (p : Passage) (hp : p ∈ loadDocs conv fs sid) :
    ∃ f : FileName, p.path = filePath sid f := by
  unfold loadDocs at hp
  rw [List.mem_flatMap] at hp
  obtain ⟨fc, _, hfd⟩ := hp
  rw [mem_fileDocs] at hfd
  obtain ⟨-, hmap⟩ := hfd
  rw [List.mem_map] at hmap
  obtain ⟨t, -, rfl⟩ := hmap
  exact ⟨fc.1, rfl⟩

/-! ### Concrete collaborator instances (used by witnesses) -/

/-- A converter producing the whole file content as a single chunk. -/
def convW : Conv := fun _ c => [c]

/-- A pipeline returning no answers. -/
def pipeEmptyW : Pipeline := fun _ _ _ _ => []

/-- A pipeline answering with every indexed passage, metadata inherited. -/
def pipeEchoW : Pipeline :=
  fun _ _ _ d => d.map (fun p => Answer.mk p.content (some p.name) (some p.path))

theorem pipeEchoW_prov (q2 : String) (rk ek : Nat) (d : DocStore) (a : Answer)
    (ha : a ∈ pipeEchoW q2 rk ek d) :
    ∃ p ∈ d, a.name = some p.name ∧ a.path = some p.path := by
  unfold pipeEchoW at ha
  rw [List.mem_map] at ha
  obtain ⟨p, hp, rfl⟩ := ha
  exact ⟨p, hp, rfl, rfl⟩

/-! ### Path disjointness (C1) -/

theorem append_slash_inj (a : List Char) :
    ∀ (c b d : List Char), '/' ∉ a → '/' ∉ c →
      a ++ '/' :: b = c ++ '/' :: d → a = c ∧ b = d := by
  induction a with
  | nil =>
    intro c b d _ hc h
    cases c with
    | nil => simpa using h
    | cons y ys =>
      rw [List.nil_append, List.cons_append] at h
      injection h with h1 h2
      have : '/' ∈ y :: ys := by
        rw [h1]
        exact List.mem_cons_self y ys
      exact absurd this hc
  | cons x xs ih =>
    intro c b d ha hc h
    cases c with
    | nil =>
      rw [List.cons_append, List.nil_append] at h
      injection h with h1 h2
      have : '/' ∈ x :: xs := by
        rw [← h1]
        exact List.mem_cons_self x xs
      exact absurd this ha
    | cons y ys =>
      rw [List.cons_append, List.cons_append] at h
      injection h with h1 h2
      have hr := ih ys b d (fun hm => ha (List.mem_cons_of_mem x hm))
        (fun hm => hc (List.mem_cons_of_mem y hm)) h2
      exact ⟨by rw [h1, hr.1], hr.2⟩

/-- Two full file paths agree only when their session tokens and filenames
agree, for slash-free session tokens. -/
theorem filePath_eq_iff (s1 s2 : SessionId) (f g : FileName)
    (hs1 : '/' ∉ s1.data) (hs2 : '/' ∉ s2.data)
    (h : filePath s2 g = filePath s1 f) : s2 = s1 ∧ g = f := by
  have hd := congrArg String.data h
  unfold filePath sessionDirPath at hd
  have hsl : ("/" : String).data = ['/'] := rfl
  simp only [String.data_append, hsl, List.append_assoc, List.singleton_append] at hd
  have hd2 := List.append_cancel_left hd
  injection hd2 with h1 h2
  have hr := append_slash_inj s2.data s1.data g.data f.data hs2 hs1 h2
  exact ⟨String.ext hr.1, String.ext hr.2⟩

/-! ### Claim theorems -/

/-- C1: session isolation — under the pipeline contract that answers inherit
their provenance from indexed passages, a search for session `s2` renders the
same output whatever another store holds for other sessions, and no answer's
provenance path points into `s1`'s directory (session tokens are slash-free
opaque tokens). -/
theorem session_isolation (conv : Conv) (pipe : Pipeline) (st st2 : Store)
    (ds ds2 : DocStore) (s1 s2 : SessionId) (q : String)
    (hne : s1 ≠ s2) (hs1 : '/' ∉ s1.data) (hs2 : '/' ∉ s2.data)
    (hProv : ∀ q2 rk ek d a, a ∈ pipe q2 rk ek d →
        ∃ p ∈ d, a.name = some p.name ∧ a.path = some p.path)
    (hagree : filesOf st2 s2 = filesOf st s2) :
    (run_search conv pipe st2 ds2 s2 q).2.2 = (run_search conv pipe st ds s2 q).2.2 ∧
    ∀ a ∈ pipe q 10 5 ((run_search conv pipe st ds s2 q).2.1),
      ∀ f : FileName, a.path ≠ some (filePath s1 f) := by
  constructor
  · rw [run_search_output, run_search_output, hagree]
  · intro a ha f hpath
    rw [run_search_index] at ha
    obtain ⟨p, hp, -, hap⟩ := hProv q 10 5 _ a ha
    obtain ⟨g, hg⟩ := loadDocs_path conv (filesOf st s2) s2 p hp
    rw [hap, hg] at hpath
    have hr := filePath_eq_iff s1 s2 f g hs1 hs2 (Option.some.inj hpath)
    exact hne hr.1.symm

/-- C1 witness: varying session "a"'s files leaves session "b"'s rendered
output unchanged. -/
theorem session_isolation_witness :
    (run_search convW pipeEchoW [("a", [("x.txt", "hello")])] [] "b" "q").2.2
      = (run_search convW pipeEchoW [] [] "b" "q").2.2 :=
  (session_isolation convW pipeEchoW [] [("a", [("x.txt", "hello")])] [] [] "a" "b" "q"
    (by decide) (by decide) (by decide) pipeEchoW_prov (by decide)).1

/-- C2: after the reset-and-reload step, the document store holds exactly the
passages loaded from this session's directory in this invocation, and nothing
of the index contents of any prior call (the result is independent of the
incoming document store). -/
theorem search_index_exact (conv : Conv) (pipe : Pipeline) (st : Store)
    (ds : DocStore) (sid : SessionId) (q : String) :
    (run_search conv pipe st ds sid q).2.1 = loadDocs conv (filesOf st sid) sid ∧
    ∀ ds0, (run_search conv pipe st ds0 sid q).2.1
      = (run_search conv pipe st ds sid q).2.1 :=
  ⟨run_search_index conv pipe st ds sid q, fun ds0 => rfl⟩

/-- C3: `delete_files` followed by `list_session_files` yields an empty
sequence, and the session directory exists (holding zero entries). -/
theorem delete_then_list_empty (st : Store) (sid : SessionId) :
    lookupSession (delete_files st sid).1 sid = some [] ∧
    list_session_files (delete_files st sid).1 sid = [] := by
  unfold delete_files list_session_files filesOf
  simp [lookupSession_updateSession, lookupSession_get_user_dir_self]

/-- C4: a search on a session whose directory holds zero files renders the
single "no results" message (the pipeline contract demands an empty answer
sequence on an empty index). -/
theorem search_empty_session (conv : Conv) (pipe : Pipeline) (st : Store)
    (ds : DocStore) (sid : SessionId) (q : String)
    (hempty : filesOf st sid = [])
    (hpipe : pipe q 10 5 [] = []) :
    (run_search conv pipe st ds sid q).2.2 = "Aucun passage trouvé." := by
  rw [run_search_output, hempty]
  simp [loadDocs, hpipe, renderAll]

/-- C4 witness: concrete empty session. -/
theorem search_empty_session_witness :
    (run_search convW pipeEmptyW [] [] "s" "q").2.2 = "Aucun passage trouvé." :=
  search_empty_session convW pipeEmptyW [] [] "s" "q" rfl rfl

/-- C7: the pipeline is invoked with retriever top_k 10 and reader top_k 5,
and — under the pipeline contract of at most `extraction_top_k` answers —
at most 5 answers are rendered. -/
theorem search_topk (conv : Conv) (pipe : Pipeline) (st : Store) (ds : DocStore)
    (sid : SessionId) (q : String)
    (hlen : ∀ q2 rk ek d, (pipe q2 rk ek d).length ≤ ek) :
    (run_search conv pipe st ds sid q).2.2
        = renderAll (pipe q 10 5 (loadDocs conv (filesOf st sid) sid)) ∧
    (pipe q 10 5 (loadDocs conv (filesOf st sid) sid)).length ≤ 5 :=
  ⟨run_search_output conv pipe st ds sid q, hlen q 10 5 _⟩

/-- C7 witness: concrete store and a contract-satisfying pipeline. -/
theorem search_topk_witness :
    (run_search convW pipeEmptyW [("s", [("a.txt", "hello")])] [] "s" "q").2.2
        = renderAll (pipeEmptyW "q" 10 5
            (loadDocs convW (filesOf [("s", [("a.txt", "hello")])] "s") "s")) ∧
    (pipeEmptyW "q" 10 5
        (loadDocs convW (filesOf [("s", [("a.txt", "hello")])] "s") "s")).length ≤ 5 :=
  search_topk convW pipeEmptyW [("s", [("a.txt", "hello")])] [] "s" "q"
    (fun q2 rk ek d => by simp [pipeEmptyW])

/-- C8: with a non-empty answer sequence, the output is one block per answer —
stripped supporting text with newlines replaced by spaces, then the source
filename and path from the answer's metadata — concatenated in order,
separated by the divider. -/
theorem search_render_blocks (conv : Conv) (pipe : Pipeline) (st : Store)
    (ds : DocStore) (sid : SessionId) (q : String)
    (hne : pipe q 10 5 (loadDocs conv (filesOf st sid) sid) ≠ []) :
    (run_search conv pipe st ds sid q).2.2
      = String.intercalate "\n---\n"
          ((pipe q 10 5 (loadDocs conv (filesOf st sid) sid)).map (fun a =>
            "**Extrait :** " ++ ((a.context.trim).replace "\n" " ")
              ++ "\n\n**Fichier :** " ++ optStr a.name
              ++ "\n**Chemin :** " ++ optStr a.path)) := by
  rw [run_search_output, renderAll, if_neg (by simpa using hne)]
  rfl

/-- C8 witness: echo pipeline over a one-file session gives one block. -/
theorem search_render_blocks_witness :
    (run_search convW pipeEchoW [("s", [("a.txt", "x\ny")])] [] "s" "q").2.2
      = String.intercalate "\n---\n"
          ((pipeEchoW "q" 10 5
              (loadDocs convW (filesOf [("s", [("a.txt", "x\ny")])] "s") "s")).map (fun a =>
            "**Extrait :** " ++ ((a.context.trim).replace "\n" " ")
              ++ "\n\n**Fichier :** " ++ optStr a.name
              ++ "\n**Chemin :** " ++ optStr a.path)) :=
  search_render_blocks convW pipeEchoW [("s", [("a.txt", "x\ny")])] [] "s" "q"
    (by decide)

/-- C5: a passage is in the rebuilt index iff it comes from a stored file of
the session whose extension — per `os.path.splitext`, compared
case-insensitively (lowered) — is ".pdf", ".txt" or ".docx"; a file with any
other extension contributes no passage, and the skip is silent (`run_search`
is total, no error case). -/
theorem search_extension_filter (conv : Conv) (pipe : Pipeline) (st : Store)
    (ds : DocStore) (sid : SessionId) (q : String) (p : Passage) :
    p ∈ (run_search conv pipe st ds sid q).2.1 ↔
      ∃ fc ∈ filesOf st sid,
        (strToLower (pySplitextExt fc.1) = ".pdf"
          ∨ strToLower (pySplitextExt fc.1) = ".txt"
          ∨ strToLower (pySplitextExt fc.1) = ".docx") ∧
        p ∈ (conv (strToLower (pySplitextExt fc.1)) fc.2).map
              (fun t => Passage.mk t fc.1 (filePath sid fc.1)) := by
  rw [run_search_index]
  unfold loadDocs
  simp only [List.mem_flatMap, mem_fileDocs, recognizedExt_iff]

theorem overwrite_keys (fs : SessionFiles) (n : FileName) (c : Content) :
    (fs.map (fun e => if e.1 == n then (n, c) else e)).map (fun e => e.1)
      = fs.map (fun e => e.1) := by
  rw [List.map_map]
  apply List.map_congr_left
  intro e _
  simp only [Function.comp_apply]
  cases h : (e.1 == n) with
  | true => simp [beq_iff_eq.mp h]
  | false => simp

theorem writeFile_key_mem (fs : SessionFiles) (n : FileName) (c : Content) :
    (writeFile fs n c).any (fun e => e.1 == n) = true := by
  unfold writeFile
  by_cases h : fs.any (fun e => e.1 == n) = true
  · rw [if_pos h]
    rw [List.any_eq_true] at h ⊢
    obtain ⟨x, hx, hxn⟩ := h
    exact ⟨(n, c), List.mem_map.mpr ⟨x, hx, by simp [hxn]⟩, by simp⟩
  · rw [if_neg h]
    rw [List.any_eq_true]
    exact ⟨(n, c), by simp, by simp⟩

theorem writeFile_keys_nodup (fs : SessionFiles) (n : FileName) (c : Content)
    (hnd : (fs.map (fun e => e.1)).Nodup) :
    ((writeFile fs n c).map (fun e => e.1)).Nodup := by
  unfold writeFile
  by_cases h : fs.any (fun e => e.1 == n) = true
  · rw [if_pos h, overwrite_keys]
    exact hnd
  · rw [if_neg h]
    have hn : n ∉ fs.map (fun e => e.1) := by
      intro hmem
      apply h
      rw [List.mem_map] at hmem
      obtain ⟨e, he, hen⟩ := hmem
      rw [List.any_eq_true]
      exact ⟨e, he, by simp [hen]⟩
    rw [List.map_append, List.nodup_append]
    refine ⟨hnd, List.nodup_singleton n, fun a ha hb => ?_⟩
    have han : a = n := by simpa using hb
    exact hn (han ▸ ha)

theorem filter_overwrite_nil (fs : SessionFiles) (n : FileName) (c : Content)
    (h : ∀ e ∈ fs, e.1 ≠ n) :
    (fs.map (fun e => if e.1 == n then (n, c) else e)).filter (fun e => e.1 == n)
      = [] := by
  induction fs with
  | nil => rfl
  | cons x fs ih =>
    have hx : (x.1 == n) = false := beq_eq_false_iff_ne.mpr (h x (List.mem_cons_self x fs))
    rw [List.map_cons]
    simp only [hx, Bool.false_eq_true, if_false]
    rw [List.filter_cons_of_neg (by simp [hx])]
    exact ih (fun e he => h e (List.mem_cons_of_mem x he))

theorem filter_overwrite (fs : SessionFiles) (n : FileName) (c : Content)
    (hnd : (fs.map (fun e => e.1)).Nodup)
    (hmem : fs.any (fun e => e.1 == n) = true) :
    (fs.map (fun e => if e.1 == n then (n, c) else e)).filter (fun e => e.1 == n)
      = [(n, c)] := by
  induction fs with
  | nil => simp at hmem
  | cons x fs ih =>
    rw [List.map_cons] at hnd
    rw [List.nodup_cons] at hnd
    rw [List.map_cons]
    cases hx : (x.1 == n) with
    | true =>
      have hxn : x.1 = n := beq_iff_eq.mp hx
      simp only [hx, if_true]
      have hnil : ∀ e ∈ fs, e.1 ≠ n := by
        intro e he hen
        have hxm : x.1 ∈ List.map (fun e => e.1) fs := by
          rw [hxn, ← hen]
          exact List.mem_map.mpr ⟨e, he, rfl⟩
        exact hnd.1 hxm
      rw [List.filter_cons_of_pos (by simp), filter_overwrite_nil fs n c hnil]
    | false =>
      simp only [hx, Bool.false_eq_true, if_false]
      rw [List.filter_cons_of_neg (by simp [hx])]
      apply ih hnd.2
      rw [List.any_cons, hx, Bool.false_or] at hmem
      exact hmem

theorem writeFile_of_mem (fs : SessionFiles) (n : FileName) (c : Content)
    (h : fs.any (fun e => e.1 == n) = true) :
    writeFile fs n c = fs.map (fun e => if e.1 == n then (n, c) else e) := by
  unfold writeFile
  rw [if_pos h]

theorem writeFile_twice_filter (fs : SessionFiles) (n : FileName) (c1 c2 : Content)
    (hnd : (fs.map (fun e => e.1)).Nodup) :
    ((writeFile (writeFile fs n c1) n c2).filter (fun e => e.1 == n)) = [(n, c2)] := by
  rw [writeFile_of_mem _ _ _ (writeFile_key_mem fs n c1)]
  exact filter_overwrite _ _ _ (writeFile_keys_nodup fs n c1 hnd) (writeFile_key_mem fs n c1)

theorem filesOf_add_files_single (st : Store) (sid : SessionId) (u : String) (c : Content) :
    filesOf (add_files st sid [(u, c)]).1 sid = writeFile (filesOf st sid) (basename u) c := by
  unfold add_files
  simp only [List.foldl]
  unfold filesOf
  rw [lookupSession_updateSession, lookupSession_get_user_dir_self]
  rfl

/-- C6: adding the same filename twice overwrites instead of duplicating —
afterwards the session directory holds exactly one file of that base name,
and its content is the one of the second write.  (The hypothesis is the
filesystem invariant that a directory cannot hold two files of one name.) -/
theorem add_files_overwrites (st : Store) (sid : SessionId) (n : String)
    (c1 c2 : Content)
    (hnd : ((filesOf st sid).map (fun e => e.1)).Nodup) :
    ((filesOf (add_files (add_files st sid [(n, c1)]).1 sid [(n, c2)]).1 sid).filter
        (fun e => e.1 == basename n)) = [(basename n, c2)] ∧
    (list_session_files (add_files (add_files st sid [(n, c1)]).1 sid [(n, c2)]).1
        sid).count (basename n) = 1 := by
  have h2 : filesOf (add_files (add_files st sid [(n, c1)]).1 sid [(n, c2)]).1 sid
      = writeFile (writeFile (filesOf st sid) (basename n) c1) (basename n) c2 := by
    rw [filesOf_add_files_single, filesOf_add_files_single]
  constructor
  · rw [h2]
    exact writeFile_twice_filter _ _ _ _ hnd
  · unfold list_session_files
    rw [h2, List.count, List.countP_map, List.countP_eq_length_filter]
    have hpred :
        List.filter ((fun x => x == basename n) ∘ fun e => e.1)
            (writeFile (writeFile (filesOf st sid) (basename n) c1) (basename n) c2)
          = List.filter (fun e => e.1 == basename n)
            (writeFile (writeFile (filesOf st sid) (basename n) c1) (basename n) c2) := rfl
    rw [hpred, writeFile_twice_filter _ _ _ _ hnd]
    rfl

/-- C6 witness: two writes of `doc.txt` into a fresh session. -/
theorem add_files_overwrites_witness :
    ((filesOf (add_files (add_files [] "s" [("doc.txt", "a")]).1 "s"
          [("doc.txt", "b")]).1 "s").filter
        (fun e => e.1 == basename "doc.txt")) = [(basename "doc.txt", "b")] ∧
    (list_session_files (add_files (add_files [] "s" [("doc.txt", "a")]).1 "s"
        [("doc.txt", "b")]).1 "s").count (basename "doc.txt") = 1 :=
  add_files_overwrites [] "s" "doc.txt" "a" "b" (by decide)

/-- C9: `add_files` returns the human-readable status message carrying the
count of uploaded files written. -/
theorem add_files_message (st : Store) (sid : SessionId)
    (uploads : List (String × Content)) :
    (add_files st sid uploads).2
      = toString uploads.length ++ " fichier(s) ajouté(s)." := rfl

/-- C10: a search leaves the stored files of every session unchanged — the
files (names and contents) under every session directory are identical before
and after the call. -/
theorem search_preserves_files (conv : Conv) (pipe : Pipeline) (st : Store)
    (ds : DocStore) (sid : SessionId) (q : String) :
    ∀ s, filesOf (run_search conv pipe st ds sid q).1 s = filesOf st s := by
  intro s
  unfold run_search
  simp [filesOf_get_user_dir]

end HaystackApp
